import Mathlib

/-
Verification of the image-lifecycle policy of the news application
(src/app/app.py, with the queue consumer in src/cloud_function/index.py).

The handlers are embedded as pure functions from an explicit environment
(configuration plus the outcomes of the external S3 and SQS calls made during
one request), the current Post Store, and the request data, to the HTTP
outcome, the persisted Post Store after the request, and an ordered trace of
external-service events. Persistence happens only at db.session.commit, which
is recorded as an event carrying the store it persists.
-/

/-- An uploaded file as seen by the request handlers: only the client-supplied
filename matters for the control flow of app/app.py. -/
structure ImageFile where
  filename : String
  deriving Repr, DecidableEq

/-- Modelled from the spec: the News record of app/models.py, which app/app.py
imports but which is absent from the sources. Its fields are exactly those the
handlers in app/app.py read and write: id, title, content, user_id, image_url.
Form-supplied fields are Option String because request.form.get returns None
when the field is absent, and image_url is nullable. -/
structure News where
  id : Nat
  title : Option String
  content : Option String
  user_id : Nat
  image_url : Option String
  deriving Repr, DecidableEq

/-- Configuration and the outcomes of the external service calls made during
one request: whether YANDEX_SQS_QUEUE_URL is configured, whether sqs.send_message
succeeds, whether s3.delete_object succeeds, whether s3.upload_fileobj succeeds,
the storage endpoint and bucket names, the uuid4 value generated for an upload,
and the werkzeug secure_filename sanitiser (an external library function). -/
structure Env where
  queueUrlConfigured : Bool
  sqsSendOk : Bool
  s3DeleteOk : Bool
  uploadOk : Bool
  endpoint : String
  bucket : String
  uuid : String
  secure : String → String

/-- One external-service event, in execution order: an s3.upload_fileobj call
with the generated object key and its outcome, an s3.delete_object call with
its key and outcome, an invocation of the send_delete_message helper with the
url it was given, an sqs.send_message call with its message body and outcome,
and a db.session.commit recording the store it persists. -/
inductive Ev where
  | uploadCall (key : String) (ok : Bool)
  | deleteCall (key : String) (ok : Bool)
  | sendDeleteMsg (url : Option String)
  | enqueue (body : String) (ok : Bool)
  | commit (store : List News)
  deriving Repr, DecidableEq

/-- Python truthiness of an optional string: None and the empty string are
falsy, every other string is truthy. -/
def strTruthy : Option String → Bool
  | none => false
  | some s => s != ""

/-- Python truthiness of the request.files image slot, as tested by the
handlers: `if image and image.filename`. -/
def imageProvided : Option ImageFile → Bool
  | none => false
  | some f => f.filename != ""

/-- Python str.split with a one-character separator, on the character list of
the string: splitting the empty text gives one empty group, a separator opens
a new empty group in front, any other character is prepended to the first
group. -/
def splitChar (sep : Char) : List Char → List (List Char)
  | [] => [[]]
  | c :: rest =>
    if c = sep then [] :: splitChar sep rest
    else
      match splitChar sep rest with
      | [] => [[c]]
      | g :: gs => (c :: g) :: gs

/-- Python s.split(sep) for a one-character separator sep, as a list of
strings. -/
def pySplit (sep : Char) (s : String) : List String :=
  (splitChar sep s.toList).map (fun g => String.mk g)

/-- extract_filename_from_url (app/app.py lines 48 to 56): a falsy url (None or
the empty string) yields None; otherwise the result is index -1 of
url.split, i.e. the last group of the split. -/
def extract_filename_from_url : Option String → Option String
  | none => none
  | some u => if u == "" then none else (pySplit '/' u).getLast?

/-- send_delete_message (app/app.py lines 59 to 78): returns False without
sending when the queue url is unconfigured or the extracted filename is falsy;
otherwise calls sqs.send_message with the filename as the message body,
returning True on success and False when the call raises (the exception is
caught and logged). The invocation itself is recorded as a sendDeleteMsg
event. -/
def send_delete_message (env : Env) (image_url : Option String) : Bool × List Ev :=
  if !env.queueUrlConfigured then (false, [Ev.sendDeleteMsg image_url])
  else
    match extract_filename_from_url image_url with
    | none => (false, [Ev.sendDeleteMsg image_url])
    | some filename =>
      if filename == "" then (false, [Ev.sendDeleteMsg image_url])
      else (env.sqsSendOk, [Ev.sendDeleteMsg image_url, Ev.enqueue filename env.sqsSendOk])

/-- The unique_filename generated by upload_image_to_storage (app/app.py line
92): the uuid4 value, an underscore, and the secure_filename of the client
name. -/
def uploadKey (env : Env) (f : ImageFile) : String :=
  env.uuid ++ "_" ++ env.secure f.filename

/-- The public url returned by upload_image_to_storage (app/app.py line 104):
endpoint, bucket and unique filename joined by slashes. -/
def uploadUrl (env : Env) (f : ImageFile) : String :=
  env.endpoint ++ "/" ++ env.bucket ++ "/" ++ uploadKey env f

/-- upload_image_to_storage (app/app.py lines 81 to 107): returns None without
uploading when no file or an empty filename is supplied; otherwise uploads
under the unique key uuid4 underscore secure_filename and returns the public
url endpoint slash bucket slash key, or None when the upload raises
ClientError. -/
def upload_image_to_storage (env : Env) (image_file : Option ImageFile) :
    Option String × List Ev :=
  match image_file with
  | none => (none, [])
  | some f =>
    if f.filename == "" then (none, [])
    else if env.uploadOk then
      (some (uploadUrl env f), [Ev.uploadCall (uploadKey env f) true])
    else (none, [Ev.uploadCall (uploadKey env f) false])

/-- delete_image_from_storage (app/app.py lines 110 to 127): returns False
without calling the store when the url or the extracted filename is falsy;
otherwise calls s3.delete_object with the extracted filename, returning True on
success and False when the call raises ClientError. -/
def delete_image_from_storage (env : Env) (image_url : Option String) :
    Bool × List Ev :=
  if !(strTruthy image_url) then (false, [])
  else
    match extract_filename_from_url image_url with
    | none => (false, [])
    | some filename =>
      if filename == "" then (false, [])
      else (env.s3DeleteOk, [Ev.deleteCall filename env.s3DeleteOk])

/-- The Post Store lookup News.query.get(news_id). -/
def findNews (store : List News) (news_id : Nat) : Option News :=
  store.find? (fun n => n.id == news_id)

/-- Persisting an edited News row: every row with the same id is replaced. -/
def updateNews (store : List News) (m : News) : List News :=
  store.map (fun n => if n.id == m.id then m else n)

/-- Persisting db.session.delete of the row with the given id. -/
def removeNews (store : List News) (news_id : Nat) : List News :=
  store.filter (fun n => !(n.id == news_id))

/-- A flash message with its category. -/
inductive Flash where
  | error (msg : String)
  | success (msg : String)
  deriving Repr, DecidableEq

/-- A redirect target of the handlers. -/
inductive Target where
  | login
  | index
  | create
  | view (news_id : Nat)
  | edit (news_id : Nat)
  deriving Repr, DecidableEq

/-- The HTTP outcome of a handler: a redirect with a flash message, or the 404
page from get_or_404. -/
inductive RequestResult where
  | redirect (target : Target) (flash : Flash)
  | notFound404
  deriving Repr, DecidableEq

/-- The title and content fields of the submitted form; request.form.get
returns None for an absent field. -/
structure Form where
  title : Option String
  content : Option String
  deriving Repr, DecidableEq

/-- The POST branch of create_news (app/app.py lines 264 to 293): requires a
logged-in user, validates title and content, uploads the image when one is
supplied (aborting with an error flash when the upload fails), then inserts the
new row and commits. nextId is the id the database assigns to the new row. -/
def create_news (env : Env) (user : Option Nat) (store : List News)
    (nextId : Nat) (form : Form) (image : Option ImageFile) :
    RequestResult × List News × List Ev :=
  match user with
  | none => (.redirect .login (.error "Для создания новости необходимо войти!"), store, [])
  | some uid =>
    if !(strTruthy form.title) || !(strTruthy form.content) then
      (.redirect .create (.error "Заголовок и содержание обязательны!"), store, [])
    else if imageProvided image then
      let up := upload_image_to_storage env image
      match up.1 with
      | some u =>
        let store2 := store ++ [News.mk nextId form.title form.content uid (some u)]
        (.redirect .index (.success "Новость успешно создана!"), store2,
          up.2 ++ [Ev.commit store2])
      | none =>
        (.redirect .create (.error "Ошибка загрузки изображения"), store, up.2)
    else
      let store2 := store ++ [News.mk nextId form.title form.content uid none]
      (.redirect .index (.success "Новость успешно создана!"), store2, [Ev.commit store2])

/-- The POST branch of edit_news (app/app.py lines 302 to 343): requires a
logged-in user and authorship, assigns title and content from the form onto the
row, validates them (redirecting without a commit when invalid), and when a new
image file is supplied uploads it first; on upload success the row gets the new
url, send_delete_message is called once with the old url, and the commit
persists the whole edit; on upload failure it redirects with an error flash and
nothing is committed. Without a new image only title and content are committed. -/
def edit_news (env : Env) (user : Option Nat) (store : List News)
    (news_id : Nat) (form : Form) (image : Option ImageFile) :
    RequestResult × List News × List Ev :=
  match user with
  | none => (.redirect .login (.error "Для редактирования необходимо войти!"), store, [])
  | some uid =>
    match findNews store news_id with
    | none => (.notFound404, store, [])
    | some news =>
      if news.user_id ≠ uid then
        (.redirect (.view news_id) (.error "Вы можете редактировать только свои новости!"),
          store, [])
      else
        let news1 : News := { news with title := form.title, content := form.content }
        if !(strTruthy news1.title) || !(strTruthy news1.content) then
          (.redirect (.edit news_id) (.error "Заголовок и содержание обязательны!"), store, [])
        else if imageProvided image then
          let old_image_url := news1.image_url
          let up := upload_image_to_storage env image
          match up.1 with
          | some u =>
            let news2 : News := { news1 with image_url := some u }
            let store2 := updateNews store news2
            (.redirect (.view news2.id) (.success "Новость успешно обновлена!"), store2,
              up.2 ++ (send_delete_message env old_image_url).2 ++ [Ev.commit store2])
          | none =>
            (.redirect (.edit news_id) (.error "Ошибка загрузки изображения"), store, up.2)
        else
          let store2 := updateNews store news1
          (.redirect (.view news1.id) (.success "Новость успешно обновлена!"), store2,
            [Ev.commit store2])

/-- The delete_news handler (app/app.py lines 346 to 374): requires a logged-in
user and authorship, reads the image url, deletes the row and commits, then, if
the url is truthy, tries delete_image_from_storage first and calls
send_delete_message only when that returns False; the handler always finishes
with a success flash and a redirect to the index. -/
def delete_news (env : Env) (user : Option Nat) (store : List News) (news_id : Nat) :
    RequestResult × List News × List Ev :=
  match user with
  | none => (.redirect .login (.error "Для удаления необходимо войти!"), store, [])
  | some uid =>
    match findNews store news_id with
    | none => (.notFound404, store, [])
    | some news =>
      if news.user_id ≠ uid then
        (.redirect (.view news_id) (.error "Вы можете удалять только свои новости!"),
          store, [])
      else
        let image_url := news.image_url
        let store2 := removeNews store news_id
        let evDel :=
          if strTruthy image_url then
            let d := delete_image_from_storage env image_url
            if d.1 then d.2 else d.2 ++ (send_delete_message env image_url).2
          else []
        (.redirect .index (.success "Новость успешно удалена!"), store2,
          Ev.commit store2 :: evDel)

/-- The message bodies of the sqs.send_message calls in a trace. -/
def enqueueBodies (evs : List Ev) : List String :=
  evs.filterMap fun e => match e with | .enqueue b _ => some b | _ => none

/-- The object keys of the s3.delete_object calls in a trace. -/
def deleteCallKeys (evs : List Ev) : List String :=
  evs.filterMap fun e => match e with | .deleteCall k _ => some k | _ => none

/-- The object keys of the s3.upload_fileobj calls in a trace. -/
def uploadCallKeys (evs : List Ev) : List String :=
  evs.filterMap fun e => match e with | .uploadCall k _ => some k | _ => none

/-- The arguments of the send_delete_message invocations in a trace. -/
def sendDeleteCalls (evs : List Ev) : List (Option String) :=
  evs.filterMap fun e => match e with | .sendDeleteMsg u => some u | _ => none

/-- splitChar never returns the empty list, so indexing the split at -1 cannot
raise in extract_filename_from_url. -/
theorem splitChar_ne_nil (sep : Char) (l : List Char) : splitChar sep l ≠ [] := by
  cases l with
  | nil => simp [splitChar]
  | cons c rest =>
    rw [splitChar]
    by_cases hc : c = sep
    · simp [hc]
    · simp only [hc, if_false]
      cases h : splitChar sep rest <;> simp

/-- A row found by id has that id. -/
theorem findNews_mem_id (store : List News) (i : Nat) (n : News)
    (h : findNews store i = some n) : n.id = i := by
  have := List.find?_some h
  simpa using this

/-- After removing a row by id, no row with that id is found. -/
theorem findNews_removeNews (store : List News) (i : Nat) :
    findNews (removeNews store i) i = none := by
  rw [findNews, List.find?_eq_none]
  intro x hx
  rw [removeNews, List.mem_filter] at hx
  simpa using hx.2

/-- After persisting an edited row, looking up its id finds the edited row. -/
theorem findNews_updateNews (store : List News) (i : Nat) (n m : News)
    (h : findNews store i = some n) (hm : m.id = i) :
    findNews (updateNews store m) i = some m := by
  induction store with
  | nil => simp [findNews] at h
  | cons a rest ih =>
    by_cases ha : a.id = i
    · have h1 : (a.id == m.id) = true := by simp [ha, hm]
      rw [findNews, updateNews]
      simp only [List.map_cons, h1, if_true]
      rw [List.find?_cons_of_pos _ (by simp [hm])]
    · have h1 : (a.id == m.id) = false := by simp [hm]; omega
      rw [findNews, updateNews] at *
      simp only [List.map_cons, h1, Bool.false_eq_true, if_false]
      rw [List.find?_cons_of_neg _ (by simp [ha])] at h ⊢
      exact ih h

/-- The trace of send_delete_message is its invocation marker alone, or the
marker followed by exactly one sqs.send_message call whose body is the
extracted nonempty filename. -/
theorem send_delete_message_trace (env : Env) (url : Option String) :
    (send_delete_message env url).2 = [Ev.sendDeleteMsg url] ∨
    ∃ k, extract_filename_from_url url = some k ∧ k ≠ "" ∧
      (send_delete_message env url).2
        = [Ev.sendDeleteMsg url, Ev.enqueue k env.sqsSendOk] := by
  rw [send_delete_message]
  by_cases hq : env.queueUrlConfigured
  · simp only [hq, Bool.not_true, Bool.false_eq_true, if_false]
    cases hx : extract_filename_from_url url with
    | none => simp
    | some k =>
      by_cases hk : k = ""
      · simp [hk]
      · have : (k == "") = false := by simp [hk]
        simp [this, hk]
  · simp [hq]

/-- send_delete_message is invoked once per call: it contributes exactly one
sendDeleteMsg marker carrying its argument. -/
theorem sendDeleteCalls_send_delete_message (env : Env) (url : Option String) :
    sendDeleteCalls (send_delete_message env url).2 = [url] := by
  rcases send_delete_message_trace env url with h | ⟨k, _, _, h⟩ <;>
    simp [h, sendDeleteCalls]

/-- send_delete_message never calls s3.delete_object. -/
theorem deleteCallKeys_send_delete_message (env : Env) (url : Option String) :
    deleteCallKeys (send_delete_message env url).2 = [] := by
  rcases send_delete_message_trace env url with h | ⟨k, _, _, h⟩ <;>
    simp [h, deleteCallKeys]

/-- Every sqs.send_message call made by send_delete_message carries the key
extracted from its url argument as the message body. -/
theorem enqueue_mem_send_delete_message (env : Env) (url : Option String)
    (b : String) (ok : Bool)
    (hmem : Ev.enqueue b ok ∈ (send_delete_message env url).2) :
    extract_filename_from_url url = some b := by
  rcases send_delete_message_trace env url with h | ⟨k, hk, _, h⟩ <;>
    rw [h] at hmem <;> simp at hmem
  rcases hmem with ⟨hb, _⟩
  rw [hk, hb]

/-- With the queue configured and a nonempty extracted key, send_delete_message
makes exactly one sqs.send_message call with that key as body. -/
theorem send_delete_message_configured (env : Env) (url : Option String) (k : String)
    (hq : env.queueUrlConfigured = true)
    (hk : extract_filename_from_url url = some k) (hk2 : k ≠ "") :
    (send_delete_message env url).2
      = [Ev.sendDeleteMsg url, Ev.enqueue k env.sqsSendOk] := by
  have hke : (k == "") = false := by simp [hk2]
  rw [send_delete_message, hq]
  simp [hk, hke]

/-- In the authorised POST edit with a valid form, a supplied image file and a
succeeding upload, edit_news produces exactly: a success redirect to the view
page, the store with the row rewritten to the new title, content and new image
url, and the trace upload call, then the send_delete_message events for the old
url, then the single commit. -/
theorem edit_news_image_success_eq (env : Env) (uid : Nat) (store : List News)
    (news_id : Nat) (form : Form) (f : ImageFile) (news : News)
    (hfind : findNews store news_id = some news)
    (hauth : news.user_id = uid)
    (ht : strTruthy form.title = true) (hc : strTruthy form.content = true)
    (hf : f.filename ≠ "") (hup : env.uploadOk = true) :
    edit_news env (some uid) store news_id form (some f)
      = (.redirect (.view news.id) (.success "Новость успешно обновлена!"),
         updateNews store
           { news with
             title := form.title
             content := form.content
             image_url := some (uploadUrl env f) },
         Ev.uploadCall (uploadKey env f) true
           :: ((send_delete_message env news.image_url).2
               ++ [Ev.commit (updateNews store
                     { news with
                       title := form.title
                       content := form.content
                       image_url := some (uploadUrl env f) })])) := by
  have h1 : (f.filename == "") = false := by simp [hf]
  rw [edit_news, hfind]
  simp [hauth, ht, hc, imageProvided, h1, upload_image_to_storage, hup, hf]

/-- In the authorised POST edit with a valid form, a supplied image file and a
failing upload, edit_news produces exactly: an error redirect back to the edit
page, the unchanged store, and a trace holding only the failed upload call (in
particular no commit, no delete and no enqueue). -/
theorem edit_news_upload_failure_eq (env : Env) (uid : Nat) (store : List News)
    (news_id : Nat) (form : Form) (f : ImageFile) (news : News)
    (hfind : findNews store news_id = some news)
    (hauth : news.user_id = uid)
    (ht : strTruthy form.title = true) (hc : strTruthy form.content = true)
    (hf : f.filename ≠ "") (hup : env.uploadOk = false) :
    edit_news env (some uid) store news_id form (some f)
      = (.redirect (.edit news_id) (.error "Ошибка загрузки изображения"), store,
         [Ev.uploadCall (uploadKey env f) false]) := by
  have h1 : (f.filename == "") = false := by simp [hf]
  rw [edit_news, hfind]
  simp [hauth, ht, hc, imageProvided, h1, upload_image_to_storage, hup, hf]

/-- The authorised delete produces exactly: a success redirect to the index,
the store with the row removed, and a trace beginning with the commit of the
removal, followed by the storage events for the image url. -/
theorem delete_news_author_eq (env : Env) (uid : Nat) (store : List News)
    (news_id : Nat) (news : News)
    (hfind : findNews store news_id = some news)
    (hauth : news.user_id = uid) :
    delete_news env (some uid) store news_id
      = (.redirect .index (.success "Новость успешно удалена!"), removeNews store news_id,
         Ev.commit (removeNews store news_id) ::
           (if strTruthy news.image_url then
              (if (delete_image_from_storage env news.image_url).1 then
                 (delete_image_from_storage env news.image_url).2
               else
                 (delete_image_from_storage env news.image_url).2
                   ++ (send_delete_message env news.image_url).2)
            else [])) := by
  rw [delete_news, hfind]
  simp [hauth]

/-- For a truthy url with a nonempty extracted key, delete_image_from_storage
makes exactly one s3.delete_object call with that key and reports its outcome. -/
theorem delete_image_from_storage_good (env : Env) (u k : String)
    (hu : u ≠ "") (hk : extract_filename_from_url (some u) = some k) (hk2 : k ≠ "") :
    delete_image_from_storage env (some u)
      = (env.s3DeleteOk, [Ev.deleteCall k env.s3DeleteOk]) := by
  have h1 : (u != "") = true := by simp [hu]
  have h2 : (k == "") = false := by simp [hk2]
  rw [delete_image_from_storage]
  simp [strTruthy, h1, hk, h2]

/-- A concrete environment for witnesses: queue configured, all external calls
succeeding, identity sanitiser. -/
def envOk : Env :=
  ⟨true, true, true, true, "https://storage.yandexcloud.net", "bucket", "uuid1", fun s => s⟩

/-- envOk with a failing s3.upload_fileobj call. -/
def envUploadFail : Env := { envOk with uploadOk := false }

/-- envOk with a failing s3.delete_object call. -/
def envDeleteFail : Env := { envOk with s3DeleteOk := false }

/-- A concrete post with an attached image, for witnesses. -/
def postA : News :=
  ⟨1, some "t", some "c", 7, some "https://storage.yandexcloud.net/bucket/abc_old.png"⟩

/-- Claim C1: for every successful replace (an authorised edit POST with a
valid form supplying a new image file whose upload succeeds), the stored image
reference of the post after the request equals the url returned by the upload,
and send_delete_message is invoked exactly once, with the old url as its
argument. -/
theorem C1_replace_image_new_url_and_one_delete_call
    (env : Env) (uid : Nat) (store : List News) (news_id : Nat)
    (form : Form) (f : ImageFile) (news : News)
    (hfind : findNews store news_id = some news)
    (hauth : news.user_id = uid)
    (ht : strTruthy form.title = true) (hc : strTruthy form.content = true)
    (hf : f.filename ≠ "") (hup : env.uploadOk = true) :
    (upload_image_to_storage env (some f)).1 = some (uploadUrl env f) ∧
    findNews (edit_news env (some uid) store news_id form (some f)).2.1 news_id
      = some { news with
               title := form.title
               content := form.content
               image_url := some (uploadUrl env f) } ∧
    sendDeleteCalls (edit_news env (some uid) store news_id form (some f)).2.2
      = [news.image_url] := by
  have hid : news.id = news_id := findNews_mem_id store news_id news hfind
  have he := edit_news_image_success_eq env uid store news_id form f news
    hfind hauth ht hc hf hup
  refine ⟨?_, ?_, ?_⟩
  · have h1 : (f.filename == "") = false := by simp [hf]
    simp [upload_image_to_storage, h1, hup]
  · rw [he]
    exact findNews_updateNews store news_id news _ hfind (by simp [hid])
  · rw [he]
    have h2 := sendDeleteCalls_send_delete_message env news.image_url
    simp only [sendDeleteCalls, List.filterMap_cons, List.filterMap_append,
      List.filterMap_nil] at h2 ⊢
    simp [h2]

/-- Witness for claim C1 at a concrete successful replace. -/
theorem C1_witness :
    (upload_image_to_storage envOk (some ⟨"new.png"⟩)).1
      = some (uploadUrl envOk ⟨"new.png"⟩) ∧
    findNews (edit_news envOk (some 7) [postA] 1 ⟨some "t2", some "c2"⟩
        (some ⟨"new.png"⟩)).2.1 1
      = some { postA with
               title := some "t2"
               content := some "c2"
               image_url := some (uploadUrl envOk ⟨"new.png"⟩) } ∧
    sendDeleteCalls (edit_news envOk (some 7) [postA] 1 ⟨some "t2", some "c2"⟩
        (some ⟨"new.png"⟩)).2.2
      = [postA.image_url] :=
  C1_replace_image_new_url_and_one_delete_call envOk 7 [postA] 1
    ⟨some "t2", some "c2"⟩ ⟨"new.png"⟩ postA (by decide) (by decide) (by decide)
    (by decide) (by decide) (by decide)

/-- Claim C3: in the replace path, removal of the old key is scheduled only
after the new image is attached: the trace of a successful replace begins with
the successful upload of the new key and every send_delete_message event comes
after it, no direct s3 delete of the old key occurs at all in this path, and
the single commit persists the new title, content and the new image url
together, as one logical transaction. -/
theorem C3_old_key_scheduled_only_after_new_attached
    (env : Env) (uid : Nat) (store : List News) (news_id : Nat)
    (form : Form) (f : ImageFile) (news : News)
    (hfind : findNews store news_id = some news)
    (hauth : news.user_id = uid)
    (ht : strTruthy form.title = true) (hc : strTruthy form.content = true)
    (hf : f.filename ≠ "") (hup : env.uploadOk = true) :
    (edit_news env (some uid) store news_id form (some f)).2.2
      = Ev.uploadCall (uploadKey env f) true
          :: ((send_delete_message env news.image_url).2
              ++ [Ev.commit (updateNews store
                    { news with
                      title := form.title
                      content := form.content
                      image_url := some (uploadUrl env f) })]) ∧
    deleteCallKeys (edit_news env (some uid) store news_id form (some f)).2.2 = [] ∧
    findNews (edit_news env (some uid) store news_id form (some f)).2.1 news_id
      = some { news with
               title := form.title
               content := form.content
               image_url := some (uploadUrl env f) } := by
  have hid : news.id = news_id := findNews_mem_id store news_id news hfind
  have he := edit_news_image_success_eq env uid store news_id form f news
    hfind hauth ht hc hf hup
  refine ⟨by rw [he], ?_, ?_⟩
  · rw [he]
    have h2 := deleteCallKeys_send_delete_message env news.image_url
    simp only [deleteCallKeys, List.filterMap_cons, List.filterMap_append,
      List.filterMap_nil] at h2 ⊢
    simp [h2]
  · rw [he]
    exact findNews_updateNews store news_id news _ hfind (by simp [hid])

/-- Witness for claim C3 at a concrete successful replace. -/
theorem C3_witness :
    (edit_news envOk (some 7) [postA] 1 ⟨some "t2", some "c2"⟩
        (some ⟨"new.png"⟩)).2.2
      = Ev.uploadCall (uploadKey envOk ⟨"new.png"⟩) true
          :: ((send_delete_message envOk postA.image_url).2
              ++ [Ev.commit (updateNews [postA]
                    { postA with
                      title := some "t2"
                      content := some "c2"
                      image_url := some (uploadUrl envOk ⟨"new.png"⟩) })]) ∧
    deleteCallKeys (edit_news envOk (some 7) [postA] 1 ⟨some "t2", some "c2"⟩
        (some ⟨"new.png"⟩)).2.2 = [] ∧
    findNews (edit_news envOk (some 7) [postA] 1 ⟨some "t2", some "c2"⟩
        (some ⟨"new.png"⟩)).2.1 1
      = some { postA with
               title := some "t2"
               content := some "c2"
               image_url := some (uploadUrl envOk ⟨"new.png"⟩) } :=
  C3_old_key_scheduled_only_after_new_attached envOk 7 [postA] 1
    ⟨some "t2", some "c2"⟩ ⟨"new.png"⟩ postA (by decide) (by decide) (by decide)
    (by decide) (by decide) (by decide)

/-- Claim C5: when the upload of a supplied image fails, both the edit and the
create mutation abort with the user-visible upload error flash, the Post Store
is unchanged (in particular the previously stored image reference of the edited
post is untouched), and the trace holds only the failed upload call: no commit,
no storage delete, no enqueue. -/
theorem C5_upload_failure_aborts_and_leaves_post_unchanged
    (env : Env) (uid : Nat) (store : List News) (news_id nextId : Nat)
    (form : Form) (f : ImageFile) (news : News)
    (hfind : findNews store news_id = some news)
    (hauth : news.user_id = uid)
    (ht : strTruthy form.title = true) (hc : strTruthy form.content = true)
    (hf : f.filename ≠ "") (hup : env.uploadOk = false) :
    edit_news env (some uid) store news_id form (some f)
      = (.redirect (.edit news_id) (.error "Ошибка загрузки изображения"), store,
         [Ev.uploadCall (uploadKey env f) false]) ∧
    create_news env (some uid) store nextId form (some f)
      = (.redirect .create (.error "Ошибка загрузки изображения"), store,
         [Ev.uploadCall (uploadKey env f) false]) ∧
    findNews (edit_news env (some uid) store news_id form (some f)).2.1 news_id
      = some news := by
  have he := edit_news_upload_failure_eq env uid store news_id form f news
    hfind hauth ht hc hf hup
  refine ⟨he, ?_, by rw [he]; exact hfind⟩
  have h1 : (f.filename == "") = false := by simp [hf]
  rw [create_news]
  simp [ht, hc, imageProvided, h1, hf, upload_image_to_storage, hup]

/-- Witness for claim C5 at a concrete failing upload. -/
theorem C5_witness :
    edit_news envUploadFail (some 7) [postA] 1 ⟨some "t2", some "c2"⟩
        (some ⟨"new.png"⟩)
      = (.redirect (.edit 1) (.error "Ошибка загрузки изображения"), [postA],
         [Ev.uploadCall (uploadKey envUploadFail ⟨"new.png"⟩) false]) ∧
    create_news envUploadFail (some 7) [postA] 2 ⟨some "t2", some "c2"⟩
        (some ⟨"new.png"⟩)
      = (.redirect .create (.error "Ошибка загрузки изображения"), [postA],
         [Ev.uploadCall (uploadKey envUploadFail ⟨"new.png"⟩) false]) ∧
    findNews (edit_news envUploadFail (some 7) [postA] 1 ⟨some "t2", some "c2"⟩
        (some ⟨"new.png"⟩)).2.1 1
      = some postA :=
  C5_upload_failure_aborts_and_leaves_post_unchanged envUploadFail 7 [postA] 1 2
    ⟨some "t2", some "c2"⟩ ⟨"new.png"⟩ postA (by decide) (by decide) (by decide)
    (by decide) (by decide) (by decide)

/-- Claim C7: failures of the queue enqueue (and of the direct storage delete)
are never escalated: the environment here is arbitrary, so queue configuration,
sqs.send_message outcome and s3.delete_object outcome are unconstrained, yet
the authorised delete always finishes with its success flash and the row
removed, and the authorised replace with a succeeding upload always finishes
with its success flash and the row rewritten. -/
theorem C7_enqueue_failure_swallowed_mutation_succeeds
    (env : Env) (uid : Nat) (store : List News) (news_id : Nat)
    (form : Form) (f : ImageFile) (news : News)
    (hfind : findNews store news_id = some news)
    (hauth : news.user_id = uid)
    (ht : strTruthy form.title = true) (hc : strTruthy form.content = true)
    (hf : f.filename ≠ "") (hup : env.uploadOk = true) :
    (delete_news env (some uid) store news_id).1
      = .redirect .index (.success "Новость успешно удалена!") ∧
    (delete_news env (some uid) store news_id).2.1 = removeNews store news_id ∧
    (edit_news env (some uid) store news_id form (some f)).1
      = .redirect (.view news.id) (.success "Новость успешно обновлена!") ∧
    (edit_news env (some uid) store news_id form (some f)).2.1
      = updateNews store
          { news with
            title := form.title
            content := form.content
            image_url := some (uploadUrl env f) } := by
  have hd := delete_news_author_eq env uid store news_id news hfind hauth
  have he := edit_news_image_success_eq env uid store news_id form f news
    hfind hauth ht hc hf hup
  rw [hd, he]
  exact ⟨rfl, rfl, rfl, rfl⟩

/-- Witness for claim C7 in an environment where the queue is unconfigured and
both sqs.send_message and s3.delete_object fail. -/
theorem C7_witness :
    (delete_news ⟨false, false, false, true, "e", "b", "u", fun s => s⟩
        (some 7) [postA] 1).1
      = .redirect .index (.success "Новость успешно удалена!") ∧
    (delete_news ⟨false, false, false, true, "e", "b", "u", fun s => s⟩
        (some 7) [postA] 1).2.1 = removeNews [postA] 1 ∧
    (edit_news ⟨false, false, false, true, "e", "b", "u", fun s => s⟩
        (some 7) [postA] 1 ⟨some "t2", some "c2"⟩ (some ⟨"new.png"⟩)).1
      = .redirect (.view postA.id) (.success "Новость успешно обновлена!") ∧
    (edit_news ⟨false, false, false, true, "e", "b", "u", fun s => s⟩
        (some 7) [postA] 1 ⟨some "t2", some "c2"⟩ (some ⟨"new.png"⟩)).2.1
      = updateNews [postA]
          { postA with
            title := some "t2"
            content := some "c2"
            image_url := some (uploadUrl
              ⟨false, false, false, true, "e", "b", "u", fun s => s⟩
              ⟨"new.png"⟩) } :=
  C7_enqueue_failure_swallowed_mutation_succeeds
    ⟨false, false, false, true, "e", "b", "u", fun s => s⟩ 7 [postA] 1
    ⟨some "t2", some "c2"⟩ ⟨"new.png"⟩ postA (by decide) (by decide) (by decide)
    (by decide) (by decide) (by decide)

/-- Claim C10: an authorised edit POST with a valid form and no new image file
performs exactly one commit and nothing else: no upload, no storage delete, no
enqueue; only title and content are rewritten and the stored image reference is
unchanged. -/
theorem C10_edit_without_image_only_title_content
    (env : Env) (uid : Nat) (store : List News) (news_id : Nat)
    (form : Form) (image : Option ImageFile) (news : News)
    (hfind : findNews store news_id = some news)
    (hauth : news.user_id = uid)
    (ht : strTruthy form.title = true) (hc : strTruthy form.content = true)
    (hni : imageProvided image = false) :
    edit_news env (some uid) store news_id form image
      = (.redirect (.view news.id) (.success "Новость успешно обновлена!"),
         updateNews store { news with title := form.title, content := form.content },
         [Ev.commit (updateNews store
            { news with title := form.title, content := form.content })]) ∧
    findNews (edit_news env (some uid) store news_id form image).2.1 news_id
      = some { news with title := form.title, content := form.content } ∧
    ({ news with title := form.title, content := form.content } : News).image_url
      = news.image_url := by
  have hid : news.id = news_id := findNews_mem_id store news_id news hfind
  have he : edit_news env (some uid) store news_id form image
      = (.redirect (.view news.id) (.success "Новость успешно обновлена!"),
         updateNews store { news with title := form.title, content := form.content },
         [Ev.commit (updateNews store
            { news with title := form.title, content := form.content })]) := by
    rw [edit_news, hfind]
    simp [hauth, ht, hc, hni]
  refine ⟨he, ?_, rfl⟩
  rw [he]
  exact findNews_updateNews store news_id news _ hfind (by simp [hid])

/-- Witness for claim C10 at a concrete edit without an image file. -/
theorem C10_witness :
    edit_news envOk (some 7) [postA] 1 ⟨some "t2", some "c2"⟩ none
      = (.redirect (.view postA.id) (.success "Новость успешно обновлена!"),
         updateNews [postA] { postA with title := some "t2", content := some "c2" },
         [Ev.commit (updateNews [postA]
            { postA with title := some "t2", content := some "c2" })]) ∧
    findNews (edit_news envOk (some 7) [postA] 1 ⟨some "t2", some "c2"⟩ none).2.1 1
      = some { postA with title := some "t2", content := some "c2" } ∧
    ({ postA with title := some "t2", content := some "c2" } : News).image_url
      = postA.image_url :=
  C10_edit_without_image_only_title_content envOk 7 [postA] 1
    ⟨some "t2", some "c2"⟩ none postA (by decide) (by decide) (by decide)
    (by decide) (by decide)

/-- Claim C2: in the authorised delete of a post with an image, the direct
s3 delete is tried first; when it fails the trace holds exactly one
send_delete_message invocation and one sqs.send_message call whose body is the
same key the direct delete targeted; when it succeeds the trace holds no
send_delete_message invocation and no sqs.send_message call at all. -/
theorem C2_direct_delete_then_queue_fallback
    (env : Env) (uid : Nat) (store : List News) (news_id : Nat) (news : News)
    (u k : String)
    (hfind : findNews store news_id = some news)
    (hauth : news.user_id = uid)
    (hurl : news.image_url = some u) (hu : u ≠ "")
    (hk : extract_filename_from_url (some u) = some k) (hk2 : k ≠ "")
    (hq : env.queueUrlConfigured = true) :
    (env.s3DeleteOk = false →
       (delete_news env (some uid) store news_id).2.2
         = [Ev.commit (removeNews store news_id), Ev.deleteCall k false,
            Ev.sendDeleteMsg (some u), Ev.enqueue k env.sqsSendOk]) ∧
    (env.s3DeleteOk = true →
       (delete_news env (some uid) store news_id).2.2
         = [Ev.commit (removeNews store news_id), Ev.deleteCall k true]) := by
  have hd := delete_news_author_eq env uid store news_id news hfind hauth
  have hdel := delete_image_from_storage_good env u k hu hk hk2
  have hsend := send_delete_message_configured env (some u) k hq hk hk2
  have htr : strTruthy (some u) = true := by simp [strTruthy, hu]
  rw [hd, hurl]
  constructor
  · intro hs
    rw [hs] at hdel
    simp [htr, hdel, hsend]
  · intro hs
    rw [hs] at hdel
    simp [htr, hdel]

/-- Witness for claim C2 at a concrete delete with a failing direct s3 delete. -/
theorem C2_witness :
    (envDeleteFail.s3DeleteOk = false →
       (delete_news envDeleteFail (some 7) [postA] 1).2.2
         = [Ev.commit (removeNews [postA] 1), Ev.deleteCall "abc_old.png" false,
            Ev.sendDeleteMsg (some "https://storage.yandexcloud.net/bucket/abc_old.png"),
            Ev.enqueue "abc_old.png" envDeleteFail.sqsSendOk]) ∧
    (envDeleteFail.s3DeleteOk = true →
       (delete_news envDeleteFail (some 7) [postA] 1).2.2
         = [Ev.commit (removeNews [postA] 1), Ev.deleteCall "abc_old.png" true]) :=
  C2_direct_delete_then_queue_fallback envDeleteFail 7 [postA] 1 postA
    "https://storage.yandexcloud.net/bucket/abc_old.png" "abc_old.png"
    (by decide) (by decide) (by decide) (by decide) (by decide) (by decide)
    (by decide)

/-- Claim C4: in the authorised delete of a post with an image, the commit that
removes the row is the first event of the trace, so the row is gone from the
Post Store before any blob delete is attempted and no row with that id remains
findable; and even when the direct s3 delete fails the post is removed, exactly
one sqs.send_message call with the extracted key occurs, and the request still
reports success. -/
theorem C4_row_removed_before_blob_delete
    (env : Env) (uid : Nat) (store : List News) (news_id : Nat) (news : News)
    (u k : String)
    (hfind : findNews store news_id = some news)
    (hauth : news.user_id = uid)
    (hurl : news.image_url = some u) (hu : u ≠ "")
    (hk : extract_filename_from_url (some u) = some k) (hk2 : k ≠ "")
    (hq : env.queueUrlConfigured = true) :
    (delete_news env (some uid) store news_id).2.1 = removeNews store news_id ∧
    findNews (delete_news env (some uid) store news_id).2.1 news_id = none ∧
    (delete_news env (some uid) store news_id).2.2.head?
      = some (Ev.commit (removeNews store news_id)) ∧
    (env.s3DeleteOk = false →
       enqueueBodies (delete_news env (some uid) store news_id).2.2 = [k] ∧
       (delete_news env (some uid) store news_id).1
         = .redirect .index (.success "Новость успешно удалена!")) := by
  have hd := delete_news_author_eq env uid store news_id news hfind hauth
  have hdel := delete_image_from_storage_good env u k hu hk hk2
  have hsend := send_delete_message_configured env (some u) k hq hk hk2
  have htr : strTruthy (some u) = true := by simp [strTruthy, hu]
  rw [hd, hurl]
  refine ⟨rfl, findNews_removeNews store news_id, rfl, ?_⟩
  intro hs
  rw [hs] at hdel
  simp [htr, hdel, hsend, enqueueBodies]

/-- Witness for claim C4 at a concrete delete with a failing direct s3 delete. -/
theorem C4_witness :
    (delete_news envDeleteFail (some 7) [postA] 1).2.1 = removeNews [postA] 1 ∧
    findNews (delete_news envDeleteFail (some 7) [postA] 1).2.1 1 = none ∧
    (delete_news envDeleteFail (some 7) [postA] 1).2.2.head?
      = some (Ev.commit (removeNews [postA] 1)) ∧
    (envDeleteFail.s3DeleteOk = false →
       enqueueBodies (delete_news envDeleteFail (some 7) [postA] 1).2.2
         = ["abc_old.png"] ∧
       (delete_news envDeleteFail (some 7) [postA] 1).1
         = .redirect .index (.success "Новость успешно удалена!")) :=
  C4_row_removed_before_blob_delete envDeleteFail 7 [postA] 1 postA
    "https://storage.yandexcloud.net/bucket/abc_old.png" "abc_old.png"
    (by decide) (by decide) (by decide) (by decide) (by decide) (by decide)
    (by decide)

/-- Claim C6 counterexample: the claim says a stored reference with no path
separator yields failure; in the code, extracting from "abc" returns the whole
string "abc" as the key, not failure, and with the queue configured a delete
message with body "abc" is then enqueued rather than no call being attempted. -/
theorem C6_counterexample :
    extract_filename_from_url (some "abc") = some "abc" ∧
    extract_filename_from_url (some "abc") ≠ none ∧
    (send_delete_message envOk (some "abc")).2
      = [Ev.sendDeleteMsg (some "abc"), Ev.enqueue "abc" true] := by
  refine ⟨by decide, by decide, by decide⟩

/-- Claim C6 amended: key extraction is a pure function of the stored
reference; a None or empty reference yields failure, after which neither
delete_image_from_storage nor send_delete_message makes any s3 or sqs call; and
any nonempty reference always yields some key (never a crash) - in particular a
reference with no separator yields the whole reference as the key, not
failure. -/
theorem C6_key_extraction_malformed (env : Env) (u : String) (hu : u ≠ "") :
    extract_filename_from_url none = none ∧
    extract_filename_from_url (some "") = none ∧
    delete_image_from_storage env none = (false, []) ∧
    delete_image_from_storage env (some "") = (false, []) ∧
    send_delete_message env none = (false, [Ev.sendDeleteMsg none]) ∧
    send_delete_message env (some "") = (false, [Ev.sendDeleteMsg (some "")]) ∧
    ∃ k, extract_filename_from_url (some u) = some k := by
  refine ⟨rfl, by simp [extract_filename_from_url], by rfl, ?_, ?_, ?_, ?_⟩
  · rw [delete_image_from_storage]
    simp [strTruthy]
  · rw [send_delete_message]
    by_cases hq : env.queueUrlConfigured <;> simp [hq, extract_filename_from_url]
  · rw [send_delete_message]
    by_cases hq : env.queueUrlConfigured <;> simp [hq, extract_filename_from_url]
  · have h1 : pySplit '/' u ≠ [] := by
      rw [pySplit]
      simp [splitChar_ne_nil]
    refine ⟨(pySplit '/' u).getLast h1, ?_⟩
    rw [extract_filename_from_url]
    have h2 : (u == "") = false := by simp [hu]
    rw [h2]
    simp [List.getLast?_eq_getLast_of_ne_nil h1]

/-- Witness for the amended claim C6 at the separator-free reference "abc". -/
theorem C6_witness :
    extract_filename_from_url none = none ∧
    extract_filename_from_url (some "") = none ∧
    delete_image_from_storage envOk none = (false, []) ∧
    delete_image_from_storage envOk (some "") = (false, []) ∧
    send_delete_message envOk none = (false, [Ev.sendDeleteMsg none]) ∧
    send_delete_message envOk (some "") = (false, [Ev.sendDeleteMsg (some "")]) ∧
    ∃ k, extract_filename_from_url (some "abc") = some k :=
  C6_key_extraction_malformed envOk "abc" (by decide)

/-- No group produced by the split contains the separator. -/
theorem splitChar_not_mem_sep (sep : Char) (l : List Char) :
    ∀ g ∈ splitChar sep l, sep ∉ g := by
  induction l with
  | nil =>
    intro g hg
    rw [splitChar] at hg
    rcases List.mem_cons.mp hg with rfl | hg2
    · simp
    · simp at hg2
  | cons c rest ih =>
    intro g hg
    rw [splitChar] at hg
    by_cases hc : c = sep
    · rw [if_pos hc] at hg
      rcases List.mem_cons.mp hg with rfl | hg2
      · simp
      · exact ih g hg2
    · rw [if_neg hc] at hg
      cases hsp : splitChar sep rest with
      | nil => exact absurd hsp (splitChar_ne_nil sep rest)
      | cons g0 gs =>
        rw [hsp] at hg
        rcases List.mem_cons.mp hg with rfl | hg2
        · intro hmem
          rcases List.mem_cons.mp hmem with heq | hmem2
          · exact hc heq.symm
          · have hg0 : g0 ∈ splitChar sep rest := by
              rw [hsp]; exact List.mem_cons_self g0 gs
            exact ih g0 hg0 hmem2
        · have hgr : g ∈ splitChar sep rest := by
            rw [hsp]; exact List.mem_cons_of_mem g0 hg2
          exact ih g hgr

/-- Claim C8: every message body passed to sqs.send_message by
send_delete_message is the key extracted from the stored url (its last path
segment), and whenever the url contains a path separator the body is not the
full url. -/
theorem C8_enqueue_body_is_extracted_key
    (env : Env) (url : Option String) (b : String) (ok : Bool)
    (hmem : Ev.enqueue b ok ∈ (send_delete_message env url).2) :
    extract_filename_from_url url = some b ∧
    (∀ u, url = some u → ('/' : Char) ∈ u.toList → b ≠ u) := by
  have hx := enqueue_mem_send_delete_message env url b ok hmem
  refine ⟨hx, ?_⟩
  rintro u rfl hsl hbu
  rw [extract_filename_from_url] at hx
  by_cases hu : u = ""
  · rw [if_pos (by simp [hu])] at hx
    exact Option.noConfusion hx
  · rw [if_neg (by simp [hu])] at hx
    have hbmem : b ∈ pySplit '/' u := by
      have := List.mem_getLast?_eq_getLast (l := pySplit '/' u) (x := b)
        (by rw [Option.mem_def]; exact hx)
      rcases this with ⟨h1, h2⟩
      rw [h2]
      exact List.getLast_mem h1
    rw [pySplit, List.mem_map] at hbmem
    rcases hbmem with ⟨g, hgmem, hgb⟩
    have hnosep : ('/' : Char) ∉ g := splitChar_not_mem_sep '/' u.toList g hgmem
    apply hnosep
    have : u.toList = g := by rw [← hbu, ← hgb]; rfl
    rw [← this]
    exact hsl

/-- Witness for claim C8 at a concrete enqueue of the old image key. -/
theorem C8_witness :
    extract_filename_from_url (some "https://storage.yandexcloud.net/bucket/abc_old.png")
      = some "abc_old.png" ∧
    (∀ u, (some "https://storage.yandexcloud.net/bucket/abc_old.png" : Option String)
        = some u → ('/' : Char) ∈ u.toList → "abc_old.png" ≠ u) :=
  C8_enqueue_body_is_extracted_key envOk
    (some "https://storage.yandexcloud.net/bucket/abc_old.png") "abc_old.png" true
    (by decide)

/-- Claim C9: an edit or delete request on an existing post by a requester who
is not logged in or is not the author leaves the Post Store untouched, makes no
storage or queue call at all, and answers with a redirect carrying an error
flash. -/
theorem C9_non_author_requests_change_nothing
    (env : Env) (user : Option Nat) (store : List News) (news_id : Nat)
    (form : Form) (image : Option ImageFile) (news : News)
    (hfind : findNews store news_id = some news)
    (hbad : user = none ∨ ∃ uid, user = some uid ∧ news.user_id ≠ uid) :
    ((edit_news env user store news_id form image).2.1 = store ∧
     (edit_news env user store news_id form image).2.2 = [] ∧
     (∃ t m, (edit_news env user store news_id form image).1
        = .redirect t (.error m))) ∧
    ((delete_news env user store news_id).2.1 = store ∧
     (delete_news env user store news_id).2.2 = [] ∧
     (∃ t m, (delete_news env user store news_id).1 = .redirect t (.error m))) := by
  rcases hbad with rfl | ⟨uid, rfl, hne⟩
  · exact ⟨⟨rfl, rfl, .login, _, rfl⟩, ⟨rfl, rfl, .login, _, rfl⟩⟩
  · have he : edit_news env (some uid) store news_id form image
        = (.redirect (.view news_id) (.error "Вы можете редактировать только свои новости!"),
           store, []) := by
      rw [edit_news, hfind]
      simp [hne]
    have hd : delete_news env (some uid) store news_id
        = (.redirect (.view news_id) (.error "Вы можете удалять только свои новости!"),
           store, []) := by
      rw [delete_news, hfind]
      simp [hne]
    rw [he, hd]
    exact ⟨⟨rfl, rfl, .view news_id, _, rfl⟩, ⟨rfl, rfl, .view news_id, _, rfl⟩⟩

/-- Witness for claim C9 at a concrete request by a non-author. -/
theorem C9_witness :
    ((edit_news envOk (some 8) [postA] 1 ⟨some "t2", some "c2"⟩ none).2.1 = [postA] ∧
     (edit_news envOk (some 8) [postA] 1 ⟨some "t2", some "c2"⟩ none).2.2 = [] ∧
     (∃ t m, (edit_news envOk (some 8) [postA] 1 ⟨some "t2", some "c2"⟩ none).1
        = .redirect t (.error m))) ∧
    ((delete_news envOk (some 8) [postA] 1).2.1 = [postA] ∧
     (delete_news envOk (some 8) [postA] 1).2.2 = [] ∧
     (∃ t m, (delete_news envOk (some 8) [postA] 1).1 = .redirect t (.error m))) :=
  C9_non_author_requests_change_nothing envOk (some 8) [postA] 1
    ⟨some "t2", some "c2"⟩ none postA (by decide) (Or.inr ⟨8, rfl, by decide⟩)
